import Mathlib

/-!
Verification of the `asset_erc721` ink! contract (src/lib.rs) against its
natural-language specification.

Shallow embedding conventions:
* `AccountId` (32 bytes in the source) is embedded as `Nat`; the all-zero
  account is `0` and the hard-coded administrator constant is the 256-bit
  number spelled by its hex literal.
* `AssetId` (`u32`) and `Hash` are embedded as `Nat`; no arithmetic is ever
  performed on them, only equality tests, so the width does not matter.
* Each `ink_storage` `HashMap` is embedded as an association list
  `List (K × V)`; `lookupL`/`insertL`/`eraseL` mirror `get`/`insert`/`take`,
  and the `entry` API is mirrored by a lookup followed by the corresponding
  update.  All reachable states have duplicate-free key lists.
* A contract message is a function `State → Outcome`.  In the ink! 3.x
  execution model a returned `Err` does NOT revert storage writes made before
  the return (the contract relies on checking before mutating), so
  `Outcome.err` carries the state as left by the call.  A Rust panic
  (`unwrap`/`expect` on `None`, or `u32` underflow of `count -= 1` under the
  overflow-checks release profile used for ink! contracts) aborts and rolls
  back the whole transaction; it is modelled as `Outcome.trap`, which carries
  no state.  Counter increments (`*v += 1`) are modelled on unbounded `Nat`;
  the `u32` wrap-around at 2^32 is out of scope of every claim considered.
-/

/-- Association-list lookup: the value of the first pair with the given key
(mirrors `HashMap::get`). -/
def lookupL {K V : Type} [DecidableEq K] : List (K × V) → K → Option V
  | [], _ => none
  | (k, v) :: t, k' => if k = k' then some v else lookupL t k'

/-- Association-list insert: replaces the value of the first pair with the
given key, or appends the pair if the key is absent
(mirrors `HashMap::insert`; the returned old value is `lookupL` before). -/
def insertL {K V : Type} [DecidableEq K] (k : K) (v : V) : List (K × V) → List (K × V)
  | [] => [(k, v)]
  | (k', v') :: t => if k' = k then (k, v) :: t else (k', v') :: insertL k v t

/-- Association-list removal of the first pair with the given key
(mirrors `HashMap::take` / `Entry::remove_entry`). -/
def eraseL {K V : Type} [DecidableEq K] (k : K) : List (K × V) → List (K × V)
  | [] => []
  | (k', v') :: t => if k' = k then t else (k', v') :: eraseL k t

/-- The keys of an association list. -/
def keysL {K V : Type} (m : List (K × V)) : List K := m.map Prod.fst

/-- Key membership (mirrors `HashMap::contains_key`). -/
def containsL {K V : Type} [DecidableEq K] (m : List (K × V)) (k : K) : Bool :=
  (lookupL m k).isSome

/-- Error enum of the contract, verbatim from the source. -/
inductive Error where
  | NotOwner
  | NotAdministrator
  | NotApproved
  | AssetExists
  | AssetNotFound
  | CannotInsert
  | CannotRemove
  | CannotFetchValue
  | NotAllowed
  | DuplicatedData
  | CategoryNotFound
deriving DecidableEq, Repr

/-- Contract storage, field for field as in the `#[ink(storage)]` struct.
`AccountId`, `AssetId` and `Hash` are all embedded as `Nat`. -/
structure State where
  asset_owner : List (Nat × Nat)
  asset_description : List (Nat × Nat)
  asset_photo : List (Nat × Nat)
  asset_category : List (Nat × Nat)
  asset_category_description : List (Nat × Nat)
  asset_location : List (Nat × Nat)
  asset_metadata : List (Nat × Nat)
  asset_validation : List (Nat × Nat)
  asset_proxy : List (Nat × Nat)
  account_owned_assets : List (Nat × Nat)
  account_proxy : List ((Nat × Nat) × Bool)
  account_role : List (Nat × Nat)
deriving DecidableEq, Repr

/-- Result of one message call: normal return `Ok(())` with the final state,
normal return `Err(e)` with the state as left by the call (ink! 3.x does not
revert on a returned error), or a panic, which reverts everything. -/
inductive Outcome where
  | ok (s : State)
  | err (e : Error) (s : State)
  | trap
deriving DecidableEq, Repr

/-- Sequencing of fallible steps, mirroring Rust `?` on `Result`. -/
def Outcome.bind (o : Outcome) (f : State → Outcome) : Outcome :=
  match o with
  | .ok s => f s
  | .err e s => .err e s
  | .trap => .trap

/-- The state produced by the constructor `new`: every map empty. -/
def initState : State :=
  { asset_owner := []
    asset_description := []
    asset_photo := []
    asset_category := []
    asset_category_description := []
    asset_location := []
    asset_metadata := []
    asset_validation := []
    asset_proxy := []
    account_owned_assets := []
    account_proxy := []
    account_role := [] }

/-- The hard-coded super administrator account
(hex d43593c715fdd31c61141abd04a99fd6822c8558854ccde39a5684e7a56da27d read as
a big-endian number; the source wraps it in `Some`, immediately unwrapped at
every use site). -/
def administrator_accountid : Nat :=
  0xd43593c715fdd31c61141abd04a99fd6822c8558854ccde39a5684e7a56da27d

/-- `account_role_get`: role of an account, if any. -/
def account_role_get (s : State) (accountid : Nat) : Option Nat :=
  lookupL s.account_role accountid

/-- `asset_get_owner`: owner of an asset id, if any. -/
def asset_get_owner (s : State) (id : Nat) : Option Nat :=
  lookupL s.asset_owner id

/-- `exists`: the source checks `get(..).is_some() && contains_key(..)`. -/
def exists_ (s : State) (id : Nat) : Bool :=
  (lookupL s.asset_owner id).isSome && containsL s.asset_owner id

/-- `account_assets_number_or_zero`: stored counter or 0. -/
def account_assets_number (s : State) (owner : Nat) : Nat :=
  (lookupL s.account_owned_assets owner).getD 0

/-- `check_proxy_for_all`: stored blanket approval or `false`. -/
def check_proxy_for_all (s : State) (owner operator : Nat) : Bool :=
  (lookupL s.account_proxy (owner, operator)).getD false

/-- `asset_get_delegated_account`: single-asset delegate, if any. -/
def asset_get_delegated_account (s : State) (id : Nat) : Option Nat :=
  lookupL s.asset_proxy id

/-- `approved_or_owner`.  The result is `none` when the source panics: the
`owner.expect(..)` / `from.expect(..)` calls in the last disjunct run only
when the earlier short-circuited disjuncts were all false.  Otherwise
`some b` is the boolean the Rust expression evaluates to. -/
def approved_or_owner (s : State) (from_ : Option Nat) (id : Nat) : Option Bool :=
  if from_ = some 0 then some false
  else if from_ = lookupL s.asset_owner id then some true
  else if from_ = lookupL s.asset_proxy id then some true
  else
    match lookupL s.asset_owner id, from_ with
    | some ow, some f => some (check_proxy_for_all s ow f)
    | _, _ => none

/-- The free function `decrease_counter_of` can return `Err(CannotFetchValue)`
(counter absent), succeed, or panic: `*count -= 1` on a `u32` holding 0
underflows, which aborts under the overflow-checks profile ink! contracts are
built with (the crate doc declares that invariant violations panic). -/
inductive CtrRes where
  | ok (m : List (Nat × Nat))
  | err
  | trap
deriving DecidableEq, Repr

/-- `decrease_counter_of(hmap, of)`. -/
def decrease_counter_of (m : List (Nat × Nat)) (of : Nat) : CtrRes :=
  match lookupL m of with
  | none => .err
  | some 0 => .trap
  | some (n + 1) => .ok (insertL of n m)

/-- `increase_counter_of(entry)`: `entry.and_modify(|v| *v += 1).or_insert(1)`. -/
def increase_counter_of (m : List (Nat × Nat)) (of : Nat) : List (Nat × Nat) :=
  match lookupL m of with
  | some v => insertL of (v + 1) m
  | none => insertL of 1 m

/-- The repeated guard `asset.get() != &caller && account_role_get(caller).unwrap() != roleNeeded`:
`none` when the `unwrap` panics (caller differs from the owner and has no
role), otherwise `some b` where `b` is the value of the `&&` expression, i.e.
`true` exactly when the guarded `return Err(..)` is taken. -/
def owner_role_check (s : State) (caller ow roleNeeded : Nat) : Option Bool :=
  if ow ≠ caller then
    match account_role_get s caller with
    | none => none
    | some r => some (decide (r ≠ roleNeeded))
  else some false

/-- The repeated guard `administrator != caller && account_role_get(caller).unwrap() != 5`:
`none` when the `unwrap` panics, otherwise `some b` with `b` true exactly when
`return Err(NotAdministrator)` is taken. -/
def admin_check (s : State) (caller : Nat) : Option Bool :=
  if administrator_accountid ≠ caller then
    match account_role_get s caller with
    | none => none
    | some r => some (decide (r ≠ 5))
  else some false

/-- `add_asset_to(to, id)`: vacancy check, zero-destination check, counter
increment, owner insert. -/
def add_asset_to (to_ id : Nat) (s : State) : Outcome :=
  match lookupL s.asset_owner id with
  | some _ => .err .AssetExists s
  | none =>
    if to_ = 0 then .err .NotAllowed s
    else
      .ok { s with
        account_owned_assets := increase_counter_of s.account_owned_assets to_
        asset_owner := insertL id to_ s.asset_owner }

/-- `asset_remove_from(from, id)`: occupancy check on the owner map, counter
decrement for `from` (note: not for the actual owner), owner entry removal. -/
def asset_remove_from (from_ id : Nat) (s : State) : Outcome :=
  match lookupL s.asset_owner id with
  | none => .err .AssetNotFound s
  | some _ =>
    match decrease_counter_of s.account_owned_assets from_ with
    | .err => .err .CannotFetchValue s
    | .trap => .trap
    | .ok m =>
      .ok { s with
        account_owned_assets := m
        asset_owner := eraseL id s.asset_owner }

/-- `clear_proxy_asset(id)`: no-op success when no delegate is stored,
otherwise `take` it (the `None => Err(CannotRemove)` arm of the `take` match
is kept even though `contains_key` just returned true). -/
def clear_proxy_asset (id : Nat) (s : State) : Outcome :=
  if containsL s.asset_proxy id = false then .ok s
  else
    match lookupL s.asset_proxy id with
    | some _ => .ok { s with asset_proxy := eraseL id s.asset_proxy }
    | none => .err .CannotRemove s

/-- `asset_new(id)` (entry message; the event emission carries no state). -/
def asset_new (caller id : Nat) (s : State) : Outcome :=
  add_asset_to caller id s

/-- `asset_transfer_from(from, to, id)` (private helper shared by the two
transfer entry points).  The authorization line is
`!approved_or_owner(Some(caller), id) && account_role_get(caller).unwrap() != 5`,
with Rust short-circuit evaluation: the `unwrap` runs only when
`approved_or_owner` returned false, and panics when the caller has no role. -/
def asset_transfer_from (caller from_ to_ id : Nat) (s : State) : Outcome :=
  if exists_ s id = false then .err .AssetNotFound s
  else
    match approved_or_owner s (some caller) id with
    | none => .trap
    | some true =>
      Outcome.bind (clear_proxy_asset id s) (fun s1 =>
        Outcome.bind (asset_remove_from from_ id s1) (fun s2 =>
          add_asset_to to_ id s2))
    | some false =>
      match account_role_get s caller with
      | none => .trap
      | some r =>
        if r ≠ 5 then .err .NotApproved s
        else
          Outcome.bind (clear_proxy_asset id s) (fun s1 =>
            Outcome.bind (asset_remove_from from_ id s1) (fun s2 =>
              add_asset_to to_ id s2))

/-- `asset_transfer(destination, id)` entry message: `from` is the caller. -/
def asset_transfer (caller destination id : Nat) (s : State) : Outcome :=
  asset_transfer_from caller caller destination id s

/-- `transfer_from(from, to, id)` entry message. -/
def transfer_from (caller from_ to_ id : Nat) (s : State) : Outcome :=
  asset_transfer_from caller from_ to_ id s

/-- `asset_delete(id)`: existence check, exact-owner check (no role-5 or
administrator override), counter decrement for the caller, entry removal. -/
def asset_delete (caller id : Nat) (s : State) : Outcome :=
  match lookupL s.asset_owner id with
  | none => .err .AssetNotFound s
  | some ow =>
    if ow ≠ caller then .err .NotOwner s
    else
      match decrease_counter_of s.account_owned_assets caller with
      | .err => .err .CannotFetchValue s
      | .trap => .trap
      | .ok m =>
        .ok { s with
          account_owned_assets := m
          asset_owner := eraseL id s.asset_owner }

/-- `proxy_for_all_assets(to, approved)`: self-delegation check, then either
update in place (when the stored flag is currently `true`, since
`check_proxy_for_all` reads the stored boolean, not mere presence) or insert;
the insert overwrites first and only then inspects the returned old value, so
a stored `false` produces `Err(CannotInsert)` after the overwrite. -/
def proxy_for_all_assets (caller to_ : Nat) (approved : Bool) (s : State) : Outcome :=
  if to_ = caller then .err .NotAllowed s
  else
    if check_proxy_for_all s caller to_ then
      match lookupL s.account_proxy (caller, to_) with
      | none => .err .CannotFetchValue s
      | some _ =>
        .ok { s with account_proxy := insertL (caller, to_) approved s.account_proxy }
    else
      if (lookupL s.account_proxy (caller, to_)).isSome then
        .err .CannotInsert
          { s with account_proxy := insertL (caller, to_) approved s.account_proxy }
      else
        .ok { s with account_proxy := insertL (caller, to_) approved s.account_proxy }

/-- `account_delegate_for_all_asset(to, approved)` entry message. -/
def account_delegate_for_all_asset (caller to_ : Nat) (approved : Bool) (s : State) : Outcome :=
  proxy_for_all_assets caller to_ approved s

/-- `delegate_for_single_asset(to, id)`: the guard is
`!(owner == Some(caller) || check_proxy_for_all(owner.expect(..), caller))`,
so the `expect` panics when the asset has no owner and the caller is not that
(absent) owner.  The delegate insert overwrites first and only then inspects
the old value, so an existing delegate produces `Err(CannotInsert)` after the
overwrite. -/
def delegate_for_single_asset_tail (to_ id : Nat) (s : State) : Outcome :=
  if to_ = 0 then .err .NotAllowed s
  else
    if (lookupL s.asset_proxy id).isSome then
      .err .CannotInsert { s with asset_proxy := insertL id to_ s.asset_proxy }
    else
      .ok { s with asset_proxy := insertL id to_ s.asset_proxy }

/-- `delegate_for_single_asset(to, id)`: the guard is
`!(owner == Some(caller) || check_proxy_for_all(owner.expect(..), caller))`,
so the `expect` panics when the asset has no owner and the caller is not that
(absent) owner.  The rest of the body is `delegate_for_single_asset_tail`. -/
def delegate_for_single_asset (caller to_ id : Nat) (s : State) : Outcome :=
  if lookupL s.asset_owner id = some caller then delegate_for_single_asset_tail to_ id s
  else
    match lookupL s.asset_owner id with
    | none => .trap
    | some ow =>
      if check_proxy_for_all s ow caller then delegate_for_single_asset_tail to_ id s
      else .err .NotAllowed s

/-- `account_delegate_single_asset(to, id)` entry message. -/
def account_delegate_single_asset (caller to_ id : Nat) (s : State) : Outcome :=
  delegate_for_single_asset caller to_ id s

/-- `asset_description_new(id, desc)`.  Note: the source checks only that the
asset exists; despite its doc comment, it never compares the caller with the
owner.  The duplicate check reads the entry, and the subsequent `insert`
overwrites before its old value is tested for `CannotInsert`. -/
def asset_description_new (_caller id desc : Nat) (s : State) : Outcome :=
  match lookupL s.asset_owner id with
  | none => .err .AssetNotFound s
  | some _ =>
    match lookupL s.asset_description id with
    | some _ => .err .DuplicatedData s
    | none =>
      if (lookupL s.asset_description id).isSome then
        .err .CannotInsert { s with asset_description := insertL id desc s.asset_description }
      else
        .ok { s with asset_description := insertL id desc s.asset_description }

/-- `asset_description_delete(id)`: existence check, owner-or-role-5 guard
(panics when a non-owner caller has no role), presence check, removal. -/
def asset_description_delete (caller id : Nat) (s : State) : Outcome :=
  match lookupL s.asset_owner id with
  | none => .err .AssetNotFound s
  | some ow =>
    match owner_role_check s caller ow 5 with
    | none => .trap
    | some true => .err .NotOwner s
    | some false =>
      match lookupL s.asset_description id with
      | none => .err .AssetNotFound s
      | some _ => .ok { s with asset_description := eraseL id s.asset_description }

/-- `asset_photo_new(id, photoipfs)`: same shape as `asset_description_new`,
including the missing owner check. -/
def asset_photo_new (_caller id photoipfs : Nat) (s : State) : Outcome :=
  match lookupL s.asset_owner id with
  | none => .err .AssetNotFound s
  | some _ =>
    match lookupL s.asset_photo id with
    | some _ => .err .DuplicatedData s
    | none =>
      if (lookupL s.asset_photo id).isSome then
        .err .CannotInsert { s with asset_photo := insertL id photoipfs s.asset_photo }
      else
        .ok { s with asset_photo := insertL id photoipfs s.asset_photo }

/-- `asset_photo_delete(id)`: owner-or-role-5 guard, presence check, removal. -/
def asset_photo_delete (caller id : Nat) (s : State) : Outcome :=
  match lookupL s.asset_owner id with
  | none => .err .AssetNotFound s
  | some ow =>
    match owner_role_check s caller ow 5 with
    | none => .trap
    | some true => .err .NotOwner s
    | some false =>
      match lookupL s.asset_photo id with
      | none => .err .AssetNotFound s
      | some _ => .ok { s with asset_photo := eraseL id s.asset_photo }

/-- `asset_category_new(id, categoryid)`: existence check, owner-or-role-5
guard, category-description existence check, duplicate check, insert. -/
def asset_category_new (caller id categoryid : Nat) (s : State) : Outcome :=
  match lookupL s.asset_owner id with
  | none => .err .AssetNotFound s
  | some ow =>
    match owner_role_check s caller ow 5 with
    | none => .trap
    | some true => .err .NotOwner s
    | some false =>
      match lookupL s.asset_category_description categoryid with
      | none => .err .CategoryNotFound s
      | some _ =>
        match lookupL s.asset_category id with
        | some _ => .err .DuplicatedData s
        | none =>
          if (lookupL s.asset_category id).isSome then
            .err .CannotInsert { s with asset_category := insertL id categoryid s.asset_category }
          else
            .ok { s with asset_category := insertL id categoryid s.asset_category }

/-- `asset_category_delete(id)`: owner-or-role-5 guard, presence check, removal. -/
def asset_category_delete (caller id : Nat) (s : State) : Outcome :=
  match lookupL s.asset_owner id with
  | none => .err .AssetNotFound s
  | some ow =>
    match owner_role_check s caller ow 5 with
    | none => .trap
    | some true => .err .NotOwner s
    | some false =>
      match lookupL s.asset_category id with
      | none => .err .AssetNotFound s
      | some _ => .ok { s with asset_category := eraseL id s.asset_category }

/-- `asset_location_new(id, location)`: existence check, owner-or-role-4
(Shipper) guard, duplicate check, insert. -/
def asset_location_new (caller id location : Nat) (s : State) : Outcome :=
  match lookupL s.asset_owner id with
  | none => .err .AssetNotFound s
  | some ow =>
    match owner_role_check s caller ow 4 with
    | none => .trap
    | some true => .err .NotOwner s
    | some false =>
      match lookupL s.asset_location id with
      | some _ => .err .DuplicatedData s
      | none =>
        if (lookupL s.asset_location id).isSome then
          .err .CannotInsert { s with asset_location := insertL id location s.asset_location }
        else
          .ok { s with asset_location := insertL id location s.asset_location }

/-- `asset_location_delete(id)`: owner-or-role-4 guard, presence check, removal. -/
def asset_location_delete (caller id : Nat) (s : State) : Outcome :=
  match lookupL s.asset_owner id with
  | none => .err .AssetNotFound s
  | some ow =>
    match owner_role_check s caller ow 4 with
    | none => .trap
    | some true => .err .NotOwner s
    | some false =>
      match lookupL s.asset_location id with
      | none => .err .AssetNotFound s
      | some _ => .ok { s with asset_location := eraseL id s.asset_location }

/-- `asset_metadata_new(id, metadata)`: existence check, owner-or-role-5
guard, duplicate check, insert. -/
def asset_metadata_new (caller id metadata : Nat) (s : State) : Outcome :=
  match lookupL s.asset_owner id with
  | none => .err .AssetNotFound s
  | some ow =>
    match owner_role_check s caller ow 5 with
    | none => .trap
    | some true => .err .NotOwner s
    | some false =>
      match lookupL s.asset_metadata id with
      | some _ => .err .DuplicatedData s
      | none =>
        if (lookupL s.asset_metadata id).isSome then
          .err .CannotInsert { s with asset_metadata := insertL id metadata s.asset_metadata }
        else
          .ok { s with asset_metadata := insertL id metadata s.asset_metadata }

/-- `asset_metadata_delete(id)`: owner-or-role-5 guard, presence check, removal. -/
def asset_metadata_delete (caller id : Nat) (s : State) : Outcome :=
  match lookupL s.asset_owner id with
  | none => .err .AssetNotFound s
  | some ow =>
    match owner_role_check s caller ow 5 with
    | none => .trap
    | some true => .err .NotOwner s
    | some false =>
      match lookupL s.asset_metadata id with
      | none => .err .AssetNotFound s
      | some _ => .ok { s with asset_metadata := eraseL id s.asset_metadata }

/-- `asset_validation_new(id, accountid)`: administrator gate first, then
asset existence, duplicate check, insert. -/
def asset_validation_new (caller id accountid : Nat) (s : State) : Outcome :=
  match admin_check s caller with
  | none => .trap
  | some true => .err .NotAdministrator s
  | some false =>
    match lookupL s.asset_owner id with
    | none => .err .AssetNotFound s
    | some _ =>
      match lookupL s.asset_validation id with
      | some _ => .err .DuplicatedData s
      | none =>
        if (lookupL s.asset_validation id).isSome then
          .err .CannotInsert { s with asset_validation := insertL id accountid s.asset_validation }
        else
          .ok { s with asset_validation := insertL id accountid s.asset_validation }

/-- `asset_validation_delete(id)`: administrator gate, asset existence,
presence check, removal. -/
def asset_validation_delete (caller id : Nat) (s : State) : Outcome :=
  match admin_check s caller with
  | none => .trap
  | some true => .err .NotAdministrator s
  | some false =>
    match lookupL s.asset_owner id with
    | none => .err .AssetNotFound s
    | some _ =>
      match lookupL s.asset_validation id with
      | none => .err .AssetNotFound s
      | some _ => .ok { s with asset_validation := eraseL id s.asset_validation }

/-- `category_description_new(id, description)`: administrator gate,
duplicate check, insert (no asset existence requirement, no event). -/
def category_description_new (caller id description : Nat) (s : State) : Outcome :=
  match admin_check s caller with
  | none => .trap
  | some true => .err .NotAdministrator s
  | some false =>
    match lookupL s.asset_category_description id with
    | some _ => .err .DuplicatedData s
    | none =>
      if (lookupL s.asset_category_description id).isSome then
        .err .CannotInsert
          { s with asset_category_description := insertL id description s.asset_category_description }
      else
        .ok { s with asset_category_description := insertL id description s.asset_category_description }

/-- `category_description_delete(id)`: administrator gate, presence check
(`CategoryNotFound` when absent), removal. -/
def category_description_delete (caller id : Nat) (s : State) : Outcome :=
  match admin_check s caller with
  | none => .trap
  | some true => .err .NotAdministrator s
  | some false =>
    match lookupL s.asset_category_description id with
    | none => .err .CategoryNotFound s
    | some _ => .ok { s with asset_category_description := eraseL id s.asset_category_description }

/-- `account_role_new(accountid, role)`: administrator gate, range check
(`role > 5` rejected with `CannotInsert`), duplicate check, insert. -/
def account_role_new (caller accountid role : Nat) (s : State) : Outcome :=
  match admin_check s caller with
  | none => .trap
  | some true => .err .NotAdministrator s
  | some false =>
    if role > 5 then .err .CannotInsert s
    else
      match lookupL s.account_role accountid with
      | some _ => .err .DuplicatedData s
      | none =>
        if (lookupL s.account_role accountid).isSome then
          .err .CannotInsert { s with account_role := insertL accountid role s.account_role }
        else
          .ok { s with account_role := insertL accountid role s.account_role }

/-- `account_role_delete(accountid)`: administrator gate, presence check
(`CannotRemove` when absent), removal. -/
def account_role_delete (caller accountid : Nat) (s : State) : Outcome :=
  match admin_check s caller with
  | none => .trap
  | some true => .err .NotAdministrator s
  | some false =>
    match lookupL s.account_role accountid with
    | none => .err .CannotRemove s
    | some _ => .ok { s with account_role := eraseL accountid s.account_role }

/-- One entry call to the contract: the mutating `#[ink(message)]`s, each with
its caller (the identity the environment supplies) and its arguments. -/
inductive Call where
  | asset_new (caller id : Nat)
  | asset_description_new (caller id desc : Nat)
  | asset_description_delete (caller id : Nat)
  | asset_photo_new (caller id photoipfs : Nat)
  | asset_photo_delete (caller id : Nat)
  | asset_category_new (caller id categoryid : Nat)
  | asset_category_delete (caller id : Nat)
  | asset_location_new (caller id location : Nat)
  | asset_location_delete (caller id : Nat)
  | asset_metadata_new (caller id metadata : Nat)
  | asset_metadata_delete (caller id : Nat)
  | asset_validation_new (caller id accountid : Nat)
  | asset_validation_delete (caller id : Nat)
  | category_description_new (caller id description : Nat)
  | category_description_delete (caller id : Nat)
  | asset_delete (caller id : Nat)
  | account_role_new (caller accountid role : Nat)
  | account_role_delete (caller accountid : Nat)
  | account_delegate_for_all_asset (caller dst : Nat) (approved : Bool)
  | account_delegate_single_asset (caller dst id : Nat)
  | asset_transfer (caller destination id : Nat)
  | transfer_from (caller src dst id : Nat)
deriving DecidableEq, Repr

/-- Dispatch one entry call against a state. -/
def exec (c : Call) (s : State) : Outcome :=
  match c with
  | .asset_new caller id => asset_new caller id s
  | .asset_description_new caller id desc => asset_description_new caller id desc s
  | .asset_description_delete caller id => asset_description_delete caller id s
  | .asset_photo_new caller id photoipfs => asset_photo_new caller id photoipfs s
  | .asset_photo_delete caller id => asset_photo_delete caller id s
  | .asset_category_new caller id categoryid => asset_category_new caller id categoryid s
  | .asset_category_delete caller id => asset_category_delete caller id s
  | .asset_location_new caller id location => asset_location_new caller id location s
  | .asset_location_delete caller id => asset_location_delete caller id s
  | .asset_metadata_new caller id metadata => asset_metadata_new caller id metadata s
  | .asset_metadata_delete caller id => asset_metadata_delete caller id s
  | .asset_validation_new caller id accountid => asset_validation_new caller id accountid s
  | .asset_validation_delete caller id => asset_validation_delete caller id s
  | .category_description_new caller id description => category_description_new caller id description s
  | .category_description_delete caller id => category_description_delete caller id s
  | .asset_delete caller id => asset_delete caller id s
  | .account_role_new caller accountid role => account_role_new caller accountid role s
  | .account_role_delete caller accountid => account_role_delete caller accountid s
  | .account_delegate_for_all_asset caller dst approved =>
      account_delegate_for_all_asset caller dst approved s
  | .account_delegate_single_asset caller dst id =>
      account_delegate_single_asset caller dst id s
  | .asset_transfer caller destination id => asset_transfer caller destination id s
  | .transfer_from caller src dst id => transfer_from caller src dst id s

/-- States reachable from the fresh contract by successful entry calls. -/
inductive Reachable : State → Prop where
  | init : Reachable initState
  | step (c : Call) (s s' : State) : Reachable s → exec c s = .ok s' → Reachable s'

/-- A call is owner-faithful when every transfer names the asset's current
owner as the `from` side (for `asset_transfer` the `from` side is the caller). -/
def ownerFaithful (s : State) : Call → Prop
  | .asset_transfer caller _ id => lookupL s.asset_owner id = some caller
  | .transfer_from _ src _ id => lookupL s.asset_owner id = some src
  | _ => True

/-- States reachable by successful entry calls whose transfers are all
owner-faithful. -/
inductive ReachableF : State → Prop where
  | init : ReachableF initState
  | step (c : Call) (s s' : State) :
      ReachableF s → ownerFaithful s c → exec c s = .ok s' → ReachableF s'

/-- Run a list of calls, requiring every one to succeed. -/
def runOk : List Call → State → Option State
  | [], s => some s
  | c :: cs, s =>
    match exec c s with
    | .ok s' => runOk cs s'
    | _ => none

/-- Number of assets whose stored owner is `a`. -/
def countOwned (a : Nat) (m : List (Nat × Nat)) : Nat :=
  (m.filter (fun p => p.2 = a)).length

/-- Sum of all stored values (used for the owned-counter sum). -/
def sumVals (m : List (Nat × Nat)) : Nat :=
  (m.map Prod.snd).sum

/-- Structural well-formedness: duplicate-free keys in the maps the ownership
claims reason about. -/
def WF (s : State) : Prop :=
  (keysL s.asset_owner).Nodup ∧ (keysL s.account_owned_assets).Nodup ∧
    (keysL s.asset_proxy).Nodup

/-- The owned-count invariant: for every account, the stored counter (0 when
absent) equals the number of assets it owns. -/
def CountInv (s : State) : Prop :=
  ∀ a : Nat, (lookupL s.account_owned_assets a).getD 0 = countOwned a s.asset_owner

theorem lookupL_insertL_self {K V : Type} [DecidableEq K] (k : K) (v : V) (m : List (K × V)) :
    lookupL (insertL k v m) k = some v := by
  induction m with
  | nil => simp [insertL, lookupL]
  | cons p t ih =>
    obtain ⟨a, b⟩ := p
    by_cases ha : a = k <;> simp [insertL, lookupL, ha, ih]

theorem lookupL_insertL_ne {K V : Type} [DecidableEq K] {k k' : K} (v : V) (m : List (K × V))
    (h : k' ≠ k) : lookupL (insertL k v m) k' = lookupL m k' := by
  induction m with
  | nil => simp [insertL, lookupL, Ne.symm h]
  | cons p t ih =>
    obtain ⟨a, b⟩ := p
    by_cases ha : a = k
    · subst ha
      simp [insertL, lookupL, Ne.symm h]
    · simp [insertL, lookupL, ha, ih]

theorem lookupL_eq_none_of_not_mem {K V : Type} [DecidableEq K] {k : K} {m : List (K × V)}
    (h : k ∉ keysL m) : lookupL m k = none := by
  induction m with
  | nil => rfl
  | cons p t ih =>
    obtain ⟨a, b⟩ := p
    simp only [keysL, List.map_cons, List.mem_cons, not_or] at h
    have h1 : ¬ a = k := fun hh => h.1 hh.symm
    simp only [lookupL, if_neg h1]
    exact ih h.2

theorem lookupL_isSome_of_mem {K V : Type} [DecidableEq K] {k : K} {m : List (K × V)}
    (h : k ∈ keysL m) : (lookupL m k).isSome := by
  induction m with
  | nil => simp [keysL] at h
  | cons p t ih =>
    obtain ⟨a, b⟩ := p
    by_cases ha : a = k
    · simp [lookupL, ha]
    · simp only [keysL, List.map_cons, List.mem_cons] at h
      rcases h with h | h
      · exact absurd h.symm ha
      · simp only [lookupL, if_neg ha]
        exact ih h

theorem lookupL_eraseL_self {K V : Type} [DecidableEq K] {k : K} {m : List (K × V)}
    (h : (keysL m).Nodup) : lookupL (eraseL k m) k = none := by
  induction m with
  | nil => rfl
  | cons p t ih =>
    obtain ⟨a, b⟩ := p
    simp only [keysL, List.map_cons, List.nodup_cons] at h
    by_cases ha : a = k
    · subst ha
      simp only [eraseL, if_pos rfl]
      exact lookupL_eq_none_of_not_mem h.1
    · simp only [eraseL, if_neg ha, lookupL, if_neg ha]
      exact ih h.2

theorem lookupL_eraseL_ne {K V : Type} [DecidableEq K] {k k' : K} (m : List (K × V))
    (h : k' ≠ k) : lookupL (eraseL k m) k' = lookupL m k' := by
  induction m with
  | nil => rfl
  | cons p t ih =>
    obtain ⟨a, b⟩ := p
    by_cases ha : a = k
    · subst ha
      simp [eraseL, lookupL, Ne.symm h]
    · simp [eraseL, lookupL, ha, ih]

theorem keysL_insertL {K V : Type} [DecidableEq K] (k : K) (v : V) (m : List (K × V)) :
    keysL (insertL k v m) =
      if (lookupL m k).isSome then keysL m else keysL m ++ [k] := by
  induction m with
  | nil => simp [insertL, keysL, lookupL]
  | cons p t ih =>
    obtain ⟨a, b⟩ := p
    by_cases ha : a = k
    · subst ha
      simp [insertL, keysL, lookupL]
    · simp only [insertL, if_neg ha, keysL, List.map_cons, lookupL, ha, if_false]
      by_cases hc : (lookupL t k).isSome <;>
        simp only [keysL] at ih <;> simp [hc, ih]

theorem nodup_keysL_insertL {K V : Type} [DecidableEq K] {k : K} {v : V} {m : List (K × V)}
    (h : (keysL m).Nodup) : (keysL (insertL k v m)).Nodup := by
  rw [keysL_insertL]
  by_cases hc : (lookupL m k).isSome
  · simpa [hc] using h
  · rw [if_neg hc]
    rw [List.nodup_append]
    refine ⟨h, List.nodup_singleton k, ?_⟩
    intro x hx hk
    simp only [List.mem_singleton] at hk
    subst hk
    have := lookupL_isSome_of_mem hx
    simp [this] at hc

theorem keysL_eraseL_sublist {K V : Type} [DecidableEq K] (k : K) (m : List (K × V)) :
    (keysL (eraseL k m)).Sublist (keysL m) := by
  induction m with
  | nil => simp [eraseL, keysL]
  | cons p t ih =>
    obtain ⟨a, b⟩ := p
    by_cases ha : a = k
    · simp only [eraseL, if_pos ha, keysL, List.map_cons]
      exact List.sublist_cons_self a (List.map Prod.fst t)
    · simp only [eraseL, if_neg ha, keysL, List.map_cons]
      exact List.Sublist.cons₂ a ih

theorem nodup_keysL_eraseL {K V : Type} [DecidableEq K] {k : K} {m : List (K × V)}
    (h : (keysL m).Nodup) : (keysL (eraseL k m)).Nodup :=
  List.Nodup.sublist (keysL_eraseL_sublist k m) h

theorem countOwned_insertL_absent {a b k : Nat} {m : List (Nat × Nat)}
    (h : lookupL m k = none) :
    countOwned a (insertL k b m) = countOwned a m + (if b = a then 1 else 0) := by
  induction m with
  | nil => by_cases hb : b = a <;> simp [insertL, countOwned, hb]
  | cons p t ih =>
    obtain ⟨x, y⟩ := p
    have hx : ¬ x = k := by
      intro hh
      simp [lookupL, hh] at h
    simp only [lookupL, if_neg hx] at h
    have iht := ih h
    simp only [insertL, if_neg hx, countOwned, List.filter_cons] at iht ⊢
    by_cases hy : y = a <;> by_cases hb : b = a <;>
      simp [hy, hb] at iht ⊢ <;> omega

theorem countOwned_eraseL {a b k : Nat} {m : List (Nat × Nat)}
    (h : lookupL m k = some b) :
    countOwned a (eraseL k m) + (if b = a then 1 else 0) = countOwned a m := by
  induction m with
  | nil => simp [lookupL] at h
  | cons p t ih =>
    obtain ⟨x, y⟩ := p
    by_cases hx : x = k
    · simp only [lookupL, if_pos hx] at h
      have hyb : y = b := Option.some.inj h
      rw [← hyb]
      simp only [eraseL, if_pos hx]
      by_cases hy : y = a <;> simp [countOwned, List.filter_cons, hy]
    · simp only [lookupL, if_neg hx] at h
      have iht := ih h
      simp only [eraseL, if_neg hx, countOwned, List.filter_cons] at iht ⊢
      by_cases hy : y = a <;> by_cases hb : b = a <;>
        simp [hy, hb] at iht ⊢ <;> omega

theorem countOwned_pos {a k : Nat} {m : List (Nat × Nat)}
    (h : lookupL m k = some a) : 0 < countOwned a m := by
  induction m with
  | nil => simp [lookupL] at h
  | cons p t ih =>
    obtain ⟨x, y⟩ := p
    by_cases hx : x = k
    · simp only [lookupL, if_pos hx] at h
      have hya : y = a := Option.some.inj h
      simp [countOwned, List.filter_cons, hya]
    · simp only [lookupL, if_neg hx] at h
      have iht := ih h
      simp only [countOwned, List.filter_cons] at iht ⊢
      by_cases hy : y = a <;> simp [hy] <;> omega

theorem sumVals_insertL_absent {k v : Nat} {m : List (Nat × Nat)}
    (h : lookupL m k = none) : sumVals (insertL k v m) = sumVals m + v := by
  induction m with
  | nil => simp [insertL, sumVals]
  | cons p t ih =>
    obtain ⟨x, y⟩ := p
    have hx : ¬ x = k := by
      intro hh
      simp [lookupL, hh] at h
    simp only [lookupL, if_neg hx] at h
    have iht := ih h
    simp only [insertL, if_neg hx, sumVals, List.map_cons, List.sum_cons] at iht ⊢
    omega

theorem sumVals_insertL_present {k v w : Nat} {m : List (Nat × Nat)}
    (h : lookupL m k = some w) : sumVals (insertL k v m) + w = sumVals m + v := by
  induction m with
  | nil => simp [lookupL] at h
  | cons p t ih =>
    obtain ⟨x, y⟩ := p
    by_cases hx : x = k
    · simp only [lookupL, if_pos hx] at h
      have hyw : y = w := Option.some.inj h
      rw [← hyw]
      simp only [insertL, if_pos hx, sumVals, List.map_cons, List.sum_cons]
      omega
    · simp only [lookupL, if_neg hx] at h
      have iht := ih h
      simp only [insertL, if_neg hx, sumVals, List.map_cons, List.sum_cons] at iht ⊢
      omega

theorem sumVals_eraseL {k v : Nat} {m : List (Nat × Nat)}
    (h : lookupL m k = some v) : sumVals (eraseL k m) + v = sumVals m := by
  induction m with
  | nil => simp [lookupL] at h
  | cons p t ih =>
    obtain ⟨x, y⟩ := p
    by_cases hx : x = k
    · simp only [lookupL, if_pos hx] at h
      have hyv : y = v := Option.some.inj h
      rw [← hyv]
      simp only [eraseL, if_pos hx, sumVals, List.map_cons, List.sum_cons]
      omega
    · simp only [lookupL, if_neg hx] at h
      have iht := ih h
      simp only [eraseL, if_neg hx, sumVals, List.map_cons, List.sum_cons] at iht ⊢
      omega

theorem length_insertL_absent {K V : Type} [DecidableEq K] {k : K} (v : V)
    {m : List (K × V)} (h : lookupL m k = none) :
    (insertL k v m).length = m.length + 1 := by
  induction m with
  | nil => simp [insertL]
  | cons p t ih =>
    obtain ⟨x, y⟩ := p
    have hx : ¬ x = k := by
      intro hh
      simp [lookupL, hh] at h
    simp only [lookupL, if_neg hx] at h
    simp only [insertL, if_neg hx, List.length_cons, ih h]

theorem length_eraseL {K V : Type} [DecidableEq K] {k : K} {v : V}
    {m : List (K × V)} (h : lookupL m k = some v) :
    (eraseL k m).length + 1 = m.length := by
  induction m with
  | nil => simp [lookupL] at h
  | cons p t ih =>
    obtain ⟨x, y⟩ := p
    by_cases hx : x = k
    · simp [eraseL, if_pos hx]
    · simp only [lookupL, if_neg hx] at h
      simp only [eraseL, if_neg hx, List.length_cons, ih h]

theorem Outcome.bind_ok {o : Outcome} {f : State → Outcome} {s' : State}
    (h : Outcome.bind o f = .ok s') : ∃ s1, o = .ok s1 ∧ f s1 = .ok s' := by
  cases o with
  | ok s1 => exact ⟨s1, rfl, h⟩
  | err e s1 => simp [Outcome.bind] at h
  | trap => simp [Outcome.bind] at h

/-- Two states agree on the three ownership-relevant stores. -/
def SameOwnership (s s' : State) : Prop :=
  s'.asset_owner = s.asset_owner ∧ s'.account_owned_assets = s.account_owned_assets ∧
    s'.asset_proxy = s.asset_proxy

theorem asset_description_new_own {caller id desc : Nat} {s s' : State}
    (h : asset_description_new caller id desc s = .ok s') : SameOwnership s s' := by
  unfold asset_description_new at h
  repeat' split at h
  all_goals cases h
  all_goals simp [SameOwnership]

theorem asset_description_delete_own {caller id : Nat} {s s' : State}
    (h : asset_description_delete caller id s = .ok s') : SameOwnership s s' := by
  unfold asset_description_delete at h
  repeat' split at h
  all_goals cases h
  all_goals simp [SameOwnership]

theorem asset_photo_new_own {caller id photoipfs : Nat} {s s' : State}
    (h : asset_photo_new caller id photoipfs s = .ok s') : SameOwnership s s' := by
  unfold asset_photo_new at h
  repeat' split at h
  all_goals cases h
  all_goals simp [SameOwnership]

theorem asset_photo_delete_own {caller id : Nat} {s s' : State}
    (h : asset_photo_delete caller id s = .ok s') : SameOwnership s s' := by
  unfold asset_photo_delete at h
  repeat' split at h
  all_goals cases h
  all_goals simp [SameOwnership]

theorem asset_category_new_own {caller id categoryid : Nat} {s s' : State}
    (h : asset_category_new caller id categoryid s = .ok s') : SameOwnership s s' := by
  unfold asset_category_new at h
  repeat' split at h
  all_goals cases h
  all_goals simp [SameOwnership]

theorem asset_category_delete_own {caller id : Nat} {s s' : State}
    (h : asset_category_delete caller id s = .ok s') : SameOwnership s s' := by
  unfold asset_category_delete at h
  repeat' split at h
  all_goals cases h
  all_goals simp [SameOwnership]

theorem asset_location_new_own {caller id location : Nat} {s s' : State}
    (h : asset_location_new caller id location s = .ok s') : SameOwnership s s' := by
  unfold asset_location_new at h
  repeat' split at h
  all_goals cases h
  all_goals simp [SameOwnership]

theorem asset_location_delete_own {caller id : Nat} {s s' : State}
    (h : asset_location_delete caller id s = .ok s') : SameOwnership s s' := by
  unfold asset_location_delete at h
  repeat' split at h
  all_goals cases h
  all_goals simp [SameOwnership]

theorem asset_metadata_new_own {caller id metadata : Nat} {s s' : State}
    (h : asset_metadata_new caller id metadata s = .ok s') : SameOwnership s s' := by
  unfold asset_metadata_new at h
  repeat' split at h
  all_goals cases h
  all_goals simp [SameOwnership]

theorem asset_metadata_delete_own {caller id : Nat} {s s' : State}
    (h : asset_metadata_delete caller id s = .ok s') : SameOwnership s s' := by
  unfold asset_metadata_delete at h
  repeat' split at h
  all_goals cases h
  all_goals simp [SameOwnership]

theorem asset_validation_new_own {caller id accountid : Nat} {s s' : State}
    (h : asset_validation_new caller id accountid s = .ok s') : SameOwnership s s' := by
  unfold asset_validation_new at h
  repeat' split at h
  all_goals cases h
  all_goals simp [SameOwnership]

theorem asset_validation_delete_own {caller id : Nat} {s s' : State}
    (h : asset_validation_delete caller id s = .ok s') : SameOwnership s s' := by
  unfold asset_validation_delete at h
  repeat' split at h
  all_goals cases h
  all_goals simp [SameOwnership]

theorem category_description_new_own {caller id description : Nat} {s s' : State}
    (h : category_description_new caller id description s = .ok s') : SameOwnership s s' := by
  unfold category_description_new at h
  repeat' split at h
  all_goals cases h
  all_goals simp [SameOwnership]

theorem category_description_delete_own {caller id : Nat} {s s' : State}
    (h : category_description_delete caller id s = .ok s') : SameOwnership s s' := by
  unfold category_description_delete at h
  repeat' split at h
  all_goals cases h
  all_goals simp [SameOwnership]

theorem account_role_new_own {caller accountid role : Nat} {s s' : State}
    (h : account_role_new caller accountid role s = .ok s') : SameOwnership s s' := by
  unfold account_role_new at h
  repeat' split at h
  all_goals cases h
  all_goals simp [SameOwnership]

theorem account_role_delete_own {caller accountid : Nat} {s s' : State}
    (h : account_role_delete caller accountid s = .ok s') : SameOwnership s s' := by
  unfold account_role_delete at h
  repeat' split at h
  all_goals cases h
  all_goals simp [SameOwnership]

theorem proxy_for_all_assets_own {caller to_ : Nat} {approved : Bool} {s s' : State}
    (h : proxy_for_all_assets caller to_ approved s = .ok s') : SameOwnership s s' := by
  unfold proxy_for_all_assets at h
  repeat' split at h
  all_goals cases h
  all_goals simp [SameOwnership]

theorem delegate_for_single_asset_tail_maps {to_ id : Nat} {s s' : State}
    (h : delegate_for_single_asset_tail to_ id s = .ok s') :
    s'.asset_owner = s.asset_owner ∧ s'.account_owned_assets = s.account_owned_assets ∧
      s'.asset_proxy = insertL id to_ s.asset_proxy := by
  unfold delegate_for_single_asset_tail at h
  repeat' split at h
  all_goals cases h
  all_goals simp

theorem delegate_for_single_asset_maps {caller to_ id : Nat} {s s' : State}
    (h : delegate_for_single_asset caller to_ id s = .ok s') :
    s'.asset_owner = s.asset_owner ∧ s'.account_owned_assets = s.account_owned_assets ∧
      s'.asset_proxy = insertL id to_ s.asset_proxy := by
  unfold delegate_for_single_asset at h
  repeat' split at h
  all_goals first
    | exact delegate_for_single_asset_tail_maps h
    | simp_all

theorem add_asset_to_ok {to_ id : Nat} {s s' : State}
    (h : add_asset_to to_ id s = .ok s') :
    lookupL s.asset_owner id = none ∧ to_ ≠ 0 ∧
      s' = { s with
        account_owned_assets := increase_counter_of s.account_owned_assets to_
        asset_owner := insertL id to_ s.asset_owner } := by
  unfold add_asset_to at h
  repeat' split at h
  all_goals cases h
  refine ⟨by assumption, by assumption, rfl⟩

theorem asset_remove_from_ok {from_ id : Nat} {s s' : State}
    (h : asset_remove_from from_ id s = .ok s') :
    ∃ ow n, lookupL s.asset_owner id = some ow ∧
      lookupL s.account_owned_assets from_ = some (n + 1) ∧
      s' = { s with
        account_owned_assets := insertL from_ n s.account_owned_assets
        asset_owner := eraseL id s.asset_owner } := by
  unfold asset_remove_from at h
  cases heq : lookupL s.asset_owner id with
  | none => rw [heq] at h; cases h
  | some ow =>
    rw [heq] at h
    unfold decrease_counter_of at h
    cases hc : lookupL s.account_owned_assets from_ with
    | none => rw [hc] at h; cases h
    | some n =>
      rw [hc] at h
      cases n with
      | zero => cases h
      | succ n => exact ⟨ow, n, rfl, rfl, by cases h; rfl⟩

theorem clear_proxy_asset_ok {id : Nat} {s s' : State}
    (h : clear_proxy_asset id s = .ok s') :
    (s' = s ∧ lookupL s.asset_proxy id = none) ∨
      s' = { s with asset_proxy := eraseL id s.asset_proxy } := by
  unfold clear_proxy_asset containsL at h
  cases hc : lookupL s.asset_proxy id with
  | none => rw [hc] at h; simp at h; exact Or.inl ⟨h.symm, rfl⟩
  | some v => rw [hc] at h; simp at h; exact Or.inr h.symm

theorem asset_delete_ok {caller id : Nat} {s s' : State}
    (h : asset_delete caller id s = .ok s') :
    ∃ n, lookupL s.asset_owner id = some caller ∧
      lookupL s.account_owned_assets caller = some (n + 1) ∧
      s' = { s with
        account_owned_assets := insertL caller n s.account_owned_assets
        asset_owner := eraseL id s.asset_owner } := by
  unfold asset_delete at h
  cases heq : lookupL s.asset_owner id with
  | none => rw [heq] at h; cases h
  | some ow =>
    rw [heq] at h
    dsimp only [] at h
    by_cases how : ow ≠ caller
    · rw [if_pos how] at h; cases h
    · rw [if_neg how] at h
      push_neg at how
      subst how
      unfold decrease_counter_of at h
      cases hc : lookupL s.account_owned_assets ow with
      | none => rw [hc] at h; cases h
      | some n =>
        rw [hc] at h
        cases n with
        | zero => cases h
        | succ n => exact ⟨n, rfl, rfl, by cases h; rfl⟩

theorem asset_transfer_from_ok {caller from_ to_ id : Nat} {s s' : State}
    (h : asset_transfer_from caller from_ to_ id s = .ok s') :
    ∃ s1 s2, clear_proxy_asset id s = .ok s1 ∧
      asset_remove_from from_ id s1 = .ok s2 ∧ add_asset_to to_ id s2 = .ok s' := by
  unfold asset_transfer_from at h
  repeat' split at h
  all_goals first
    | cases h
    | (obtain ⟨s1, h1, hb⟩ := Outcome.bind_ok h
       obtain ⟨s2, h2, hb2⟩ := Outcome.bind_ok hb
       exact ⟨s1, s2, h1, h2, hb2⟩)

/-- The inductive invariant: well-formed key sets plus correct owned counts. -/
def OwnInv (s : State) : Prop := WF s ∧ CountInv s

theorem OwnInv_initState : OwnInv initState := by
  refine ⟨⟨List.nodup_nil, List.nodup_nil, List.nodup_nil⟩, ?_⟩
  intro a
  rfl

theorem OwnInv_of_same {s s' : State} (hs : SameOwnership s s') (h : OwnInv s) : OwnInv s' := by
  obtain ⟨h1, h2, h3⟩ := hs
  obtain ⟨⟨w1, w2, w3⟩, hc⟩ := h
  refine ⟨⟨?_, ?_, ?_⟩, ?_⟩
  · rw [h1]; exact w1
  · rw [h2]; exact w2
  · rw [h3]; exact w3
  · intro a
    rw [h1, h2]
    exact hc a

theorem OwnInv_add_core {to_ id : Nat} {s : State}
    (habs : lookupL s.asset_owner id = none) (hi : OwnInv s) :
    OwnInv { s with
      account_owned_assets := increase_counter_of s.account_owned_assets to_
      asset_owner := insertL id to_ s.asset_owner } := by
  obtain ⟨⟨hno, hnc, hnp⟩, hcnt⟩ := hi
  refine ⟨⟨?_, ?_, ?_⟩, ?_⟩
  · exact nodup_keysL_insertL hno
  · show (keysL (increase_counter_of s.account_owned_assets to_)).Nodup
    unfold increase_counter_of
    cases lookupL s.account_owned_assets to_ <;> exact nodup_keysL_insertL hnc
  · exact hnp
  · intro a
    show (lookupL (increase_counter_of s.account_owned_assets to_) a).getD 0
      = countOwned a (insertL id to_ s.asset_owner)
    have hc := hcnt a
    rw [countOwned_insertL_absent habs]
    by_cases ha : a = to_
    · subst ha
      unfold increase_counter_of
      cases hv : lookupL s.account_owned_assets a with
      | none =>
        rw [hv] at hc
        rw [lookupL_insertL_self]
        simp at hc ⊢
        omega
      | some v =>
        rw [hv] at hc
        rw [lookupL_insertL_self]
        simp at hc ⊢
        omega
    · have hne : (if to_ = a then 1 else 0) = 0 := by
        rw [if_neg (fun hh => ha hh.symm)]
      rw [hne]
      unfold increase_counter_of
      cases hv : lookupL s.account_owned_assets to_ with
      | none =>
        rw [lookupL_insertL_ne _ _ ha]
        omega
      | some v =>
        rw [lookupL_insertL_ne _ _ ha]
        omega

theorem OwnInv_remove_core {from_ id n : Nat} {s : State}
    (hown : lookupL s.asset_owner id = some from_)
    (hc : lookupL s.account_owned_assets from_ = some (n + 1))
    (hi : OwnInv s) :
    OwnInv { s with
      account_owned_assets := insertL from_ n s.account_owned_assets
      asset_owner := eraseL id s.asset_owner } := by
  obtain ⟨⟨hno, hnc, hnp⟩, hcnt⟩ := hi
  refine ⟨⟨nodup_keysL_eraseL hno, nodup_keysL_insertL hnc, hnp⟩, ?_⟩
  intro a
  show (lookupL (insertL from_ n s.account_owned_assets) a).getD 0
    = countOwned a (eraseL id s.asset_owner)
  have hca := hcnt a
  have herase := @countOwned_eraseL a from_ id s.asset_owner hown
  by_cases ha : a = from_
  · subst ha
    rw [lookupL_insertL_self]
    rw [hc] at hca
    simp at hca herase ⊢
    omega
  · rw [lookupL_insertL_ne _ _ ha]
    rw [if_neg (fun hh => ha hh.symm)] at herase
    omega

theorem OwnInv_clear_proxy {id : Nat} {s s' : State}
    (h : clear_proxy_asset id s = .ok s') (hi : OwnInv s) : OwnInv s' := by
  rcases clear_proxy_asset_ok h with ⟨rfl, _⟩ | rfl
  · exact hi
  · obtain ⟨⟨hno, hnc, hnp⟩, hcnt⟩ := hi
    exact ⟨⟨hno, hnc, nodup_keysL_eraseL hnp⟩, hcnt⟩

theorem OwnInv_add_asset_to {to_ id : Nat} {s s' : State}
    (h : add_asset_to to_ id s = .ok s') (hi : OwnInv s) : OwnInv s' := by
  obtain ⟨habs, _, rfl⟩ := add_asset_to_ok h
  exact OwnInv_add_core habs hi

theorem OwnInv_asset_delete {caller id : Nat} {s s' : State}
    (h : asset_delete caller id s = .ok s') (hi : OwnInv s) : OwnInv s' := by
  obtain ⟨n, hown, hc, rfl⟩ := asset_delete_ok h
  exact OwnInv_remove_core hown hc hi

theorem OwnInv_transfer {caller from_ to_ id : Nat} {s s' : State}
    (hown : lookupL s.asset_owner id = some from_)
    (h : asset_transfer_from caller from_ to_ id s = .ok s') (hi : OwnInv s) : OwnInv s' := by
  obtain ⟨s1, s2, h1, h2, h3⟩ := asset_transfer_from_ok h
  have hsame : s1.asset_owner = s.asset_owner := by
    rcases clear_proxy_asset_ok h1 with ⟨rfl, _⟩ | rfl <;> rfl
  have hi1 : OwnInv s1 := OwnInv_clear_proxy h1 hi
  obtain ⟨ow, n, hown2, hc2, rfl⟩ := asset_remove_from_ok h2
  have howeq : ow = from_ := by
    rw [hsame] at hown2
    rw [hown2] at hown
    exact Option.some.inj hown
  subst howeq
  have hi2 := OwnInv_remove_core (by rw [hsame]; rw [hsame] at hown2; exact hown) hc2 hi1
  exact OwnInv_add_asset_to h3 hi2

theorem OwnInv_exec {c : Call} {s s' : State}
    (hg : ownerFaithful s c) (h : exec c s = .ok s') (hi : OwnInv s) : OwnInv s' := by
  cases c with
  | asset_new caller id =>
    exact OwnInv_add_asset_to (h : add_asset_to caller id s = .ok s') hi
  | asset_description_new caller id desc => exact OwnInv_of_same (@asset_description_new_own caller id desc s s' h) hi
  | asset_description_delete caller id => exact OwnInv_of_same (asset_description_delete_own (h : asset_description_delete caller id s = .ok s')) hi
  | asset_photo_new caller id photoipfs => exact OwnInv_of_same (@asset_photo_new_own caller id photoipfs s s' h) hi
  | asset_photo_delete caller id => exact OwnInv_of_same (asset_photo_delete_own (h : asset_photo_delete caller id s = .ok s')) hi
  | asset_category_new caller id categoryid => exact OwnInv_of_same (asset_category_new_own (h : asset_category_new caller id categoryid s = .ok s')) hi
  | asset_category_delete caller id => exact OwnInv_of_same (asset_category_delete_own (h : asset_category_delete caller id s = .ok s')) hi
  | asset_location_new caller id location => exact OwnInv_of_same (asset_location_new_own (h : asset_location_new caller id location s = .ok s')) hi
  | asset_location_delete caller id => exact OwnInv_of_same (asset_location_delete_own (h : asset_location_delete caller id s = .ok s')) hi
  | asset_metadata_new caller id metadata => exact OwnInv_of_same (asset_metadata_new_own (h : asset_metadata_new caller id metadata s = .ok s')) hi
  | asset_metadata_delete caller id => exact OwnInv_of_same (asset_metadata_delete_own (h : asset_metadata_delete caller id s = .ok s')) hi
  | asset_validation_new caller id accountid => exact OwnInv_of_same (asset_validation_new_own (h : asset_validation_new caller id accountid s = .ok s')) hi
  | asset_validation_delete caller id => exact OwnInv_of_same (asset_validation_delete_own (h : asset_validation_delete caller id s = .ok s')) hi
  | category_description_new caller id description =>
    exact OwnInv_of_same (category_description_new_own (h : category_description_new caller id description s = .ok s')) hi
  | category_description_delete caller id =>
    exact OwnInv_of_same (category_description_delete_own (h : category_description_delete caller id s = .ok s')) hi
  | asset_delete caller id => exact OwnInv_asset_delete (h : asset_delete caller id s = .ok s') hi
  | account_role_new caller accountid role => exact OwnInv_of_same (account_role_new_own (h : account_role_new caller accountid role s = .ok s')) hi
  | account_role_delete caller accountid => exact OwnInv_of_same (account_role_delete_own (h : account_role_delete caller accountid s = .ok s')) hi
  | account_delegate_for_all_asset caller dst approved =>
    exact OwnInv_of_same (proxy_for_all_assets_own (h : proxy_for_all_assets caller dst approved s = .ok s')) hi
  | account_delegate_single_asset caller dst id =>
    obtain ⟨h1, h2, h3⟩ := delegate_for_single_asset_maps (h : delegate_for_single_asset caller dst id s = .ok s')
    obtain ⟨⟨w1, w2, w3⟩, hc⟩ := hi
    refine ⟨⟨by rw [h1]; exact w1, by rw [h2]; exact w2, by rw [h3]; exact nodup_keysL_insertL w3⟩, ?_⟩
    intro a
    rw [h1, h2]
    exact hc a
  | asset_transfer caller destination id =>
    exact OwnInv_transfer (hg : lookupL s.asset_owner id = some caller) (h : asset_transfer_from caller caller destination id s = .ok s') hi
  | transfer_from caller src dst id =>
    exact OwnInv_transfer (hg : lookupL s.asset_owner id = some src) (h : asset_transfer_from caller src dst id s = .ok s') hi

theorem ReachableF_OwnInv {s : State} (h : ReachableF s) : OwnInv s := by
  induction h with
  | init => exact OwnInv_initState
  | step c s s' hr hg he ih => exact OwnInv_exec hg he ih

theorem runOk_Reachable {cs : List Call} {s s' : State}
    (hr : Reachable s) (h : runOk cs s = some s') : Reachable s' := by
  induction cs generalizing s with
  | nil =>
    cases h
    exact hr
  | cons c t ih =>
    unfold runOk at h
    cases he : exec c s with
    | ok s1 =>
      rw [he] at h
      exact ih (Reachable.step c s s1 hr he) h
    | err e s1 => rw [he] at h; cases h
    | trap => rw [he] at h; cases h

/-- The state after `asset_new(1)` by account 1 on a fresh contract. -/
def mintState : State :=
  { initState with asset_owner := [(1, 1)], account_owned_assets := [(1, 1)] }

/-- The state left behind when account 1 then calls `asset_transfer(0, 1)`:
the transfer fails with `NotAllowed`, but only after the asset entry has been
removed and the counter decremented. -/
def c1ErrState : State :=
  { initState with asset_owner := [], account_owned_assets := [(1, 0)] }

/-- Claim C1: every mutating entry operation leaves the state unchanged on
every error return.  This is false: `asset_transfer` to the zero account first
clears the proxy, removes the asset and decrements the counter, and only then
fails `NotAllowed` inside `add_asset_to`, returning with the mutated state.
This contradicts the crate doc ("does not changes the state if the Error
occurs"), so it is a code bug, witnessed here at a concrete input. -/
theorem C1_mutation_on_error :
    asset_new 1 1 initState = .ok mintState ∧
      asset_transfer 1 0 1 mintState = .err .NotAllowed c1ErrState ∧
      c1ErrState ≠ mintState := by
  refine ⟨by decide, by decide, by decide⟩

/-- The state after a non-owner, role-less account 3 adds a description to
asset 1 owned by account 1. -/
def c3DescState : State := { mintState with asset_description := [(1, 77)] }

/-- The state after a non-owner, role-less account 3 adds a photo to asset 1
owned by account 1. -/
def c3PhotoState : State := { mintState with asset_photo := [(1, 88)] }

/-- Claim C3: `asset_description_new` and `asset_photo_new` succeed only for
the owner or a role-5 caller.  This is false in the code: neither function
compares the caller with the owner (despite their doc comments, "only the
owner can do it"), so a role-less non-owner succeeds.  Code bug, witnessed at
a concrete input. -/
theorem C3_missing_owner_check :
    lookupL mintState.asset_owner 1 = some 1 ∧ (3 : Nat) ≠ 1 ∧
      account_role_get mintState 3 = none ∧
      asset_description_new 3 1 77 mintState = .ok c3DescState ∧
      asset_photo_new 3 1 88 mintState = .ok c3PhotoState := by
  refine ⟨by decide, by decide, by decide, by decide, by decide⟩

/-- The call list refuting claim C2: account 1 mints asset 10, account 2
mints asset 20 and is blanket-approved by account 1, then account 2 calls
`transfer_from(from = 2, to = 3, id = 10)` for the asset owned by account 1.
The call succeeds and decrements account 2's counter instead of account 1's. -/
def c2calls : List Call :=
  [ .asset_new 1 10, .asset_new 2 20,
    .account_delegate_for_all_asset 1 2 true,
    .transfer_from 2 2 3 10 ]

/-- The state those four successful calls produce. -/
def c2state : State :=
  { initState with
    asset_owner := [(20, 2), (10, 3)]
    account_owned_assets := [(1, 1), (2, 0), (3, 1)]
    account_proxy := [((1, 2), true)] }

/-- Claim C2, as stated, is false: `c2state` is reachable by successful entry
calls, yet account 1's stored counter is 1 while it owns no asset. -/
theorem C2_counterexample :
    Reachable c2state ∧
      (lookupL c2state.account_owned_assets 1).getD 0 ≠ countOwned 1 c2state.asset_owner := by
  constructor
  · exact runOk_Reachable Reachable.init (show runOk c2calls initState = some c2state by decide)
  · decide

/-- Claim C2 (amended): in every state reachable from the fresh contract by
successful entry calls whose transfers all name the asset's current owner as
the `from` side, every account's stored counter (0 when absent) equals the
number of assets it owns. -/
theorem C2_owned_count_invariant {s : State} (h : ReachableF s) :
    ∀ a : Nat, (lookupL s.account_owned_assets a).getD 0 = countOwned a s.asset_owner :=
  (ReachableF_OwnInv h).2

/-- Witness for C2: the invariant, instantiated at the concrete reachable
state after `asset_new(1)` by account 1, evaluated at account 1. -/
theorem C2_owned_count_invariant_witness :
    (lookupL mintState.account_owned_assets 1).getD 0 = countOwned 1 mintState.asset_owner :=
  C2_owned_count_invariant
    (ReachableF.step (Call.asset_new 1 1) initState mintState ReachableF.init
      trivial (by decide)) 1

/-- Claim C4 (amended): `account_delegate_for_all_asset(to, approved)` fails
`NotAllowed` exactly when `to` is the caller; otherwise, when the stored flag
for (caller, to) is absent or `true` it returns Ok with the flag upserted to
`approved`; when the stored flag is exactly `false` it instead returns
`CannotInsert` (the insert has nonetheless already overwritten the flag),
because `check_proxy_for_all` reads the stored boolean rather than mere
presence, sending the call into the insert-expecting-vacancy branch. -/
theorem C4_blanket_approval_upsert (caller to_ : Nat) (approved : Bool) (s : State) :
    (to_ = caller → account_delegate_for_all_asset caller to_ approved s = .err .NotAllowed s) ∧
    (to_ ≠ caller → lookupL s.account_proxy (caller, to_) ≠ some false →
      account_delegate_for_all_asset caller to_ approved s =
        .ok { s with account_proxy := insertL (caller, to_) approved s.account_proxy }) ∧
    (to_ ≠ caller → lookupL s.account_proxy (caller, to_) = some false →
      account_delegate_for_all_asset caller to_ approved s =
        .err .CannotInsert
          { s with account_proxy := insertL (caller, to_) approved s.account_proxy }) := by
  unfold account_delegate_for_all_asset proxy_for_all_assets check_proxy_for_all
  refine ⟨?_, ?_, ?_⟩
  · intro h
    rw [if_pos h]
  · intro h hne
    rw [if_neg h]
    cases hv : lookupL s.account_proxy (caller, to_) with
    | none => simp [hv]
    | some b =>
      cases b with
      | false => exact absurd hv hne
      | true => simp [hv]
  · intro h hv
    rw [if_neg h]
    simp [hv]

/-- Witness for C4: approving account 2 from account 1 on the fresh contract
returns Ok and stores the flag. -/
theorem C4_blanket_approval_upsert_witness :
    account_delegate_for_all_asset 1 2 true initState =
      .ok { initState with account_proxy := insertL (1, 2) true initState.account_proxy } :=
  (C4_blanket_approval_upsert 1 2 true initState).2.1 (by decide) (by decide)

/-- The state after account 1 sets the blanket flag for operator 2 to false
on the fresh contract. -/
def c4state1 : State := { initState with account_proxy := [((1, 2), false)] }

/-- The state after the follow-up call that tries to set the same flag to
true: the flag is overwritten, yet the call reports `CannotInsert`. -/
def c4state2 : State := { initState with account_proxy := [((1, 2), true)] }

/-- Claim C4, as stated, is false: with operator 2 distinct from caller 1,
the second upsert returns `CannotInsert` instead of Ok, because the stored
flag is `false`. -/
theorem C4_counterexample :
    account_delegate_for_all_asset 1 2 false initState = .ok c4state1 ∧
      (2 : Nat) ≠ 1 ∧
      account_delegate_for_all_asset 1 2 true c4state1 = .err .CannotInsert c4state2 := by
  refine ⟨by decide, by decide, by decide⟩

theorem exists_true_of_owner {s : State} {id ow : Nat}
    (hown : lookupL s.asset_owner id = some ow) : exists_ s id = true := by
  unfold exists_ containsL
  rw [hown]
  rfl

theorem approved_or_owner_false {s : State} {caller id ow : Nat}
    (hown : lookupL s.asset_owner id = some ow)
    (hnotown : caller ≠ ow)
    (hnotdel : lookupL s.asset_proxy id ≠ some caller)
    (hnotop : check_proxy_for_all s ow caller = false) :
    approved_or_owner s (some caller) id = some false := by
  unfold approved_or_owner
  rw [hown]
  by_cases hz : caller = 0
  · subst hz
    simp
  · rw [if_neg (by simpa using hz)]
    rw [if_neg (by simpa using hnotown)]
    rw [if_neg (fun hh => hnotdel hh.symm)]
    show some (check_proxy_for_all s ow caller) = some false
    rw [hnotop]

theorem transfer_notapproved_core {caller from_ to_ id r : Nat} {s : State}
    (hex : exists_ s id = true)
    (happ : approved_or_owner s (some caller) id = some false)
    (hr : account_role_get s caller = some r) (hr5 : r ≠ 5) :
    asset_transfer_from caller from_ to_ id s = .err .NotApproved s := by
  unfold asset_transfer_from
  rw [hex, happ, hr]
  simp [hr5]

theorem transfer_trap_core {caller from_ to_ id : Nat} {s : State}
    (hex : exists_ s id = true)
    (happ : approved_or_owner s (some caller) id = some false)
    (hr : account_role_get s caller = none) :
    asset_transfer_from caller from_ to_ id s = .trap := by
  unfold asset_transfer_from
  rw [hex, happ, hr]
  simp

/-- Claim C5 (amended): with asset `id` owned by `ow`, a caller that is not
the owner, not the asset's delegate and not a blanket-approved operator for
the owner is rejected: if the caller holds some role other than 5, both
transfer entry points return `NotApproved` with the state unchanged; if the
caller holds no role at all, the `unwrap` on the caller's role panics and the
call aborts (trap) instead of returning `NotApproved`. -/
theorem C5_unauthorized_transfer {s : State} {caller dest src id ow : Nat}
    (hown : lookupL s.asset_owner id = some ow)
    (hnotown : caller ≠ ow)
    (hnotdel : lookupL s.asset_proxy id ≠ some caller)
    (hnotop : check_proxy_for_all s ow caller = false) :
    (∀ r, account_role_get s caller = some r → r ≠ 5 →
      asset_transfer caller dest id s = .err .NotApproved s ∧
      transfer_from caller src dest id s = .err .NotApproved s) ∧
    (account_role_get s caller = none →
      asset_transfer caller dest id s = .trap ∧
      transfer_from caller src dest id s = .trap) := by
  have hex := exists_true_of_owner hown
  have happ := approved_or_owner_false hown hnotown hnotdel hnotop
  constructor
  · intro r hr hr5
    exact ⟨transfer_notapproved_core hex happ hr hr5,
      transfer_notapproved_core hex happ hr hr5⟩
  · intro hr
    exact ⟨transfer_trap_core hex happ hr, transfer_trap_core hex happ hr⟩

/-- The state for the C5 witness: asset 1 owned by account 1, account 3
holding role 2 (Retailer). -/
def c5wstate : State := { mintState with account_role := [(3, 2)] }

/-- Witness for C5: account 3 (role 2, unauthorized) transferring asset 1
receives `NotApproved` and the state is untouched. -/
theorem C5_unauthorized_transfer_witness :
    asset_transfer 3 2 1 c5wstate = .err .NotApproved c5wstate ∧
      transfer_from 3 1 2 1 c5wstate = .err .NotApproved c5wstate :=
  (@C5_unauthorized_transfer c5wstate 3 2 1 1 1
    (by decide) (by decide) (by decide) (by decide)).1 2 (by decide) (by decide)

/-- Claim C5, as stated, is false for a caller with no role: account 3 has no
role entry, is unauthorized in every way, and its transfer attempt panics
(trap) instead of returning `NotApproved`. -/
theorem C5_counterexample :
    lookupL mintState.asset_owner 1 = some 1 ∧ (3 : Nat) ≠ 1 ∧
      lookupL mintState.asset_proxy 1 ≠ some 3 ∧
      check_proxy_for_all mintState 1 3 = false ∧
      account_role_get mintState 3 = none ∧
      asset_transfer 3 2 1 mintState = .trap ∧
      asset_transfer 3 2 1 mintState ≠ .err .NotApproved mintState := by
  refine ⟨by decide, by decide, by decide, by decide, by decide, by decide, by decide⟩

/-- Claim C7: for an existing asset, `asset_delete` by any caller other than
the exact owner returns `NotOwner` with the state unchanged — the check is a
bare owner comparison, so role 5 and the hard-coded administrator get no
override; the owner's call removes the entry and decrements the owner's
stored counter by one. -/
theorem C7_delete_owner_exclusive {caller A id : Nat} {s : State}
    (hown : lookupL s.asset_owner id = some A) :
    (caller ≠ A → asset_delete caller id s = .err .NotOwner s) ∧
    (∀ n, caller = A → lookupL s.account_owned_assets A = some (n + 1) →
      (keysL s.asset_owner).Nodup →
      asset_delete caller id s =
        .ok { s with
          account_owned_assets := insertL A n s.account_owned_assets
          asset_owner := eraseL id s.asset_owner } ∧
      lookupL (eraseL id s.asset_owner) id = none ∧
      lookupL (insertL A n s.account_owned_assets) A = some n) := by
  constructor
  · intro hne
    unfold asset_delete
    rw [hown]
    dsimp only []
    rw [if_pos (fun hh => hne hh.symm)]
  · intro n hca hc hnd
    subst hca
    refine ⟨?_, lookupL_eraseL_self hnd, lookupL_insertL_self _ _ _⟩
    unfold asset_delete decrease_counter_of
    rw [hown]
    dsimp only []
    rw [if_neg (by simp), hc]

/-- Witness for C7: on the state with asset 1 owned by account 1, account 2's
delete attempt returns `NotOwner`, and account 1's delete succeeds, removing
the entry and dropping the counter to 0. -/
theorem C7_delete_owner_exclusive_witness :
    asset_delete 2 1 mintState = .err .NotOwner mintState ∧
      asset_delete 1 1 mintState =
        .ok { mintState with
          account_owned_assets := insertL 1 0 mintState.account_owned_assets
          asset_owner := eraseL 1 mintState.asset_owner } :=
  ⟨(@C7_delete_owner_exclusive 2 1 1 mintState (by decide)).1 (by decide),
    ((@C7_delete_owner_exclusive 1 1 1 mintState (by decide)).2 0 rfl (by decide) (by decide)).1⟩

/-- Claim C8: minting an absent id by a nonzero caller succeeds, makes the
caller the owner with the id existing, and raises the caller's counter by
exactly one; minting a present id fails `AssetExists` with the state
unchanged. -/
theorem C8_mint (caller id : Nat) (s : State) :
    (lookupL s.asset_owner id = none → caller ≠ 0 →
      ∃ s', asset_new caller id s = .ok s' ∧
        asset_get_owner s' id = some caller ∧
        exists_ s' id = true ∧
        (lookupL s'.account_owned_assets caller).getD 0
          = (lookupL s.account_owned_assets caller).getD 0 + 1) ∧
    (∀ ow, lookupL s.asset_owner id = some ow →
      asset_new caller id s = .err .AssetExists s) := by
  constructor
  · intro habs hnz
    refine ⟨{ s with
        account_owned_assets := increase_counter_of s.account_owned_assets caller
        asset_owner := insertL id caller s.asset_owner }, ?_, ?_, ?_, ?_⟩
    · unfold asset_new add_asset_to
      rw [habs]
      dsimp only []
      rw [if_neg hnz]
    · unfold asset_get_owner
      exact lookupL_insertL_self _ _ _
    · exact exists_true_of_owner (lookupL_insertL_self id caller s.asset_owner)
    · show (lookupL (increase_counter_of s.account_owned_assets caller) caller).getD 0
        = (lookupL s.account_owned_assets caller).getD 0 + 1
      unfold increase_counter_of
      cases hv : lookupL s.account_owned_assets caller <;>
        rw [lookupL_insertL_self] <;> rfl
  · intro ow how
    unfold asset_new add_asset_to
    rw [how]

/-- Witness for C8: mint asset 2 by account 1 on `mintState` succeeds with
counter 2, and re-minting asset 1 fails `AssetExists`. -/
theorem C8_mint_witness :
    (∃ s', asset_new 1 2 mintState = .ok s' ∧
      asset_get_owner s' 2 = some 1 ∧
      exists_ s' 2 = true ∧
      (lookupL s'.account_owned_assets 1).getD 0
        = (lookupL mintState.account_owned_assets 1).getD 0 + 1) ∧
      asset_new 1 1 mintState = .err .AssetExists mintState :=
  ⟨(C8_mint 1 2 mintState).1 (by decide) (by decide),
    (C8_mint 1 1 mintState).2 1 (by decide)⟩

/-- Recognizer for the defensive `CannotInsert` error return. -/
def isCannotInsertErr : Outcome → Bool
  | .err .CannotInsert _ => true
  | _ => false

/-- Claim C9: in the five set-once attribute creates that check vacancy
before inserting (description, photo, location, metadata, category), the
insert can never find an existing value, so the `CannotInsert` branch is
unreachable, on every state and input. -/
theorem C9_cannot_insert_unreachable (caller id v : Nat) (s : State) :
    isCannotInsertErr (asset_description_new caller id v s) = false ∧
    isCannotInsertErr (asset_photo_new caller id v s) = false ∧
    isCannotInsertErr (asset_location_new caller id v s) = false ∧
    isCannotInsertErr (asset_metadata_new caller id v s) = false ∧
    isCannotInsertErr (asset_category_new caller id v s) = false := by
  refine ⟨?_, ?_, ?_, ?_, ?_⟩
  · unfold asset_description_new
    repeat' split
    all_goals simp_all [isCannotInsertErr]
  · unfold asset_photo_new
    repeat' split
    all_goals simp_all [isCannotInsertErr]
  · unfold asset_location_new
    repeat' split
    all_goals simp_all [isCannotInsertErr]
  · unfold asset_metadata_new
    repeat' split
    all_goals simp_all [isCannotInsertErr]
  · unfold asset_category_new
    repeat' split
    all_goals simp_all [isCannotInsertErr]

/-- Claim C6: a successful transfer of asset `id` away from its owner `A` to
`B ≠ A` clears the single-asset delegate, makes `B` the owner, lowers `A`'s
counter by exactly one, raises `B`'s by exactly one, and preserves the
counter-sum invariant. -/
theorem C6_transfer_postconditions {caller A B id : Nat} {s s' : State}
    (hwf : WF s)
    (hown : lookupL s.asset_owner id = some A)
    (hBA : B ≠ A)
    (hok : transfer_from caller A B id s = .ok s') :
    lookupL s'.asset_proxy id = none ∧
    lookupL s'.asset_owner id = some B ∧
    (lookupL s'.account_owned_assets A).getD 0 + 1
      = (lookupL s.account_owned_assets A).getD 0 ∧
    (lookupL s'.account_owned_assets B).getD 0
      = (lookupL s.account_owned_assets B).getD 0 + 1 ∧
    (sumVals s.account_owned_assets = s.asset_owner.length →
      sumVals s'.account_owned_assets = s'.asset_owner.length) := by
  obtain ⟨hno, hnc, hnp⟩ := hwf
  obtain ⟨s1, s2, h1, h2, h3⟩ :=
    asset_transfer_from_ok (hok : asset_transfer_from caller A B id s = .ok s')
  have hs1own : s1.asset_owner = s.asset_owner := by
    rcases clear_proxy_asset_ok h1 with ⟨rfl, _⟩ | rfl <;> rfl
  have hs1cnt : s1.account_owned_assets = s.account_owned_assets := by
    rcases clear_proxy_asset_ok h1 with ⟨rfl, _⟩ | rfl <;> rfl
  have hs1pnone : lookupL s1.asset_proxy id = none := by
    rcases clear_proxy_asset_ok h1 with ⟨rfl, hnone⟩ | rfl
    · exact hnone
    · exact lookupL_eraseL_self hnp
  obtain ⟨ow, n, hown2, hc2, rfl⟩ := asset_remove_from_ok h2
  have howA : A = ow := by
    rw [hs1own, hown] at hown2
    exact Option.some.inj hown2
  subst howA
  obtain ⟨habs, hB0, rfl⟩ := add_asset_to_ok h3
  have hAB : A ≠ B := fun hh => hBA hh.symm
  have hcA : lookupL s.account_owned_assets A = some (n + 1) := by
    rw [← hs1cnt]
    exact hc2
  refine ⟨hs1pnone, lookupL_insertL_self _ _ _, ?_, ?_, ?_⟩
  · show (lookupL (increase_counter_of (insertL A n s1.account_owned_assets) B) A).getD 0 + 1
      = (lookupL s.account_owned_assets A).getD 0
    rw [hcA]
    unfold increase_counter_of
    cases hv : lookupL (insertL A n s1.account_owned_assets) B <;>
      rw [lookupL_insertL_ne _ _ hAB, lookupL_insertL_self] <;> rfl
  · show (lookupL (increase_counter_of (insertL A n s1.account_owned_assets) B) B).getD 0
      = (lookupL s.account_owned_assets B).getD 0 + 1
    unfold increase_counter_of
    cases hv : lookupL (insertL A n s1.account_owned_assets) B with
    | none =>
      rw [lookupL_insertL_ne _ _ hBA, hs1cnt] at hv
      rw [lookupL_insertL_self, hv]
      rfl
    | some v =>
      rw [lookupL_insertL_ne _ _ hBA, hs1cnt] at hv
      rw [lookupL_insertL_self, hv]
      rfl
  · intro hsum
    show sumVals (increase_counter_of (insertL A n s1.account_owned_assets) B)
      = (insertL id B (eraseL id s1.asset_owner)).length
    have hlen1 : (eraseL id s1.asset_owner).length + 1 = s.asset_owner.length := by
      rw [hs1own]
      exact length_eraseL hown
    have hlen2 : (insertL id B (eraseL id s1.asset_owner)).length
        = (eraseL id s1.asset_owner).length + 1 := by
      apply length_insertL_absent
      exact habs
    have hmid : sumVals (insertL A n s1.account_owned_assets) + (n + 1)
        = sumVals s1.account_owned_assets + n := sumVals_insertL_present hc2
    have hscnt : sumVals s1.account_owned_assets = sumVals s.account_owned_assets := by
      rw [hs1cnt]
    unfold increase_counter_of
    cases hv : lookupL (insertL A n s1.account_owned_assets) B with
    | none =>
      have hfin := @sumVals_insertL_absent B 1 _ hv
      dsimp only []
      rw [hfin, hlen2]
      omega
    | some v =>
      have hfin := @sumVals_insertL_present B (v + 1) v _ hv
      dsimp only []
      rw [hlen2]
      omega

/-- Witness state for C6: account 1 owns asset 1, account 2 owns asset 2. -/
def c6wstate : State :=
  { initState with
    asset_owner := [(1, 1), (2, 2)]
    account_owned_assets := [(1, 1), (2, 1)] }

/-- Result of account 1 transferring asset 1 to account 3 on `c6wstate`. -/
def c6wfinal : State :=
  { initState with
    asset_owner := [(2, 2), (1, 3)]
    account_owned_assets := [(1, 0), (2, 1), (3, 1)] }

/-- Witness for C6, instantiated at the concrete transfer of asset 1 from
owner 1 to account 3. -/
theorem C6_transfer_postconditions_witness :
    lookupL c6wfinal.asset_proxy 1 = none ∧
    lookupL c6wfinal.asset_owner 1 = some 3 ∧
    (lookupL c6wfinal.account_owned_assets 1).getD 0 + 1
      = (lookupL c6wstate.account_owned_assets 1).getD 0 ∧
    (lookupL c6wfinal.account_owned_assets 3).getD 0
      = (lookupL c6wstate.account_owned_assets 3).getD 0 + 1 ∧
    (sumVals c6wstate.account_owned_assets = c6wstate.asset_owner.length →
      sumVals c6wfinal.account_owned_assets = c6wfinal.asset_owner.length) :=
  @C6_transfer_postconditions 1 1 3 1 c6wstate c6wfinal
    (by refine ⟨?_, ?_, ?_⟩ <;> decide) (by decide) (by decide) (by decide)

theorem clear_proxy_asset_total (id : Nat) (s : State) :
    ∃ s1, clear_proxy_asset id s = .ok s1 ∧ s1.asset_owner = s.asset_owner ∧
      s1.account_owned_assets = s.account_owned_assets := by
  unfold clear_proxy_asset containsL
  cases hv : lookupL s.asset_proxy id with
  | none => exact ⟨s, by simp, rfl, rfl⟩
  | some v => exact ⟨{ s with asset_proxy := eraseL id s.asset_proxy }, by simp, rfl, rfl⟩

theorem asset_remove_from_eq {from_ id n ow : Nat} {s : State}
    (hown : lookupL s.asset_owner id = some ow)
    (hc : lookupL s.account_owned_assets from_ = some (n + 1)) :
    asset_remove_from from_ id s =
      .ok { s with
        account_owned_assets := insertL from_ n s.account_owned_assets
        asset_owner := eraseL id s.asset_owner } := by
  unfold asset_remove_from decrease_counter_of
  rw [hown, hc]

theorem add_asset_to_eq {to_ id : Nat} {s : State}
    (habs : lookupL s.asset_owner id = none) (hnz : to_ ≠ 0) :
    add_asset_to to_ id s =
      .ok { s with
        account_owned_assets := increase_counter_of s.account_owned_assets to_
        asset_owner := insertL id to_ s.asset_owner } := by
  unfold add_asset_to
  rw [habs]
  dsimp only []
  rw [if_neg hnz]

theorem approved_or_owner_isSome {s : State} {caller id ow : Nat}
    (hown : lookupL s.asset_owner id = some ow) :
    (approved_or_owner s (some caller) id).isSome = true := by
  unfold approved_or_owner
  rw [hown]
  repeat' split
  all_goals simp_all

theorem asset_transfer_from_auth_eq {caller from_ to_ id ow : Nat} {s : State}
    (hown : lookupL s.asset_owner id = some ow)
    (hauth : approved_or_owner s (some caller) id = some true ∨
      account_role_get s caller = some 5) :
    asset_transfer_from caller from_ to_ id s =
      Outcome.bind (clear_proxy_asset id s) (fun s1 =>
        Outcome.bind (asset_remove_from from_ id s1) (fun s2 =>
          add_asset_to to_ id s2)) := by
  have hex := exists_true_of_owner hown
  unfold asset_transfer_from
  rw [hex]
  cases happ : approved_or_owner s (some caller) id with
  | none =>
    have := @approved_or_owner_isSome s caller id ow hown
    rw [happ] at this
    cases this
  | some b =>
    cases b with
    | true => rfl
    | false =>
      rcases hauth with h5 | h5
      · rw [happ] at h5
        cases h5
      · rw [h5]
        simp

/-- Claim C10 (amended): `transfer_from` never verifies that `from` owns the
asset.  With the caller authorized, `from ≠ owner`, `from` holding a positive
counter, and a nonzero destination, the call succeeds: the asset leaves the
actual owner's slot (its entry now maps to `to`), the owner's counter is
untouched (when `to` differs from the owner), and it is `from`'s counter that
is decremented (when `to ≠ from`).  With a zero destination the call instead
fails `NotAllowed` (after mutating). -/
theorem C10_transfer_from_unchecked {caller from_ to_ A id n : Nat} {s : State}
    (hwf : WF s)
    (hown : lookupL s.asset_owner id = some A)
    (hauth : approved_or_owner s (some caller) id = some true ∨
      account_role_get s caller = some 5)
    (hfrom : from_ ≠ A)
    (hctr : lookupL s.account_owned_assets from_ = some (n + 1))
    (hto : to_ ≠ 0) :
    ∃ s', transfer_from caller from_ to_ id s = .ok s' ∧
      lookupL s'.asset_owner id = some to_ ∧
      (to_ ≠ A → lookupL s'.account_owned_assets A = lookupL s.account_owned_assets A) ∧
      (to_ ≠ from_ → lookupL s'.account_owned_assets from_ = some n) := by
  obtain ⟨hno, hnc, hnp⟩ := hwf
  obtain ⟨s1, h1, ho1, hc1⟩ := clear_proxy_asset_total id s
  have hown1 : lookupL s1.asset_owner id = some A := by
    rw [ho1]
    exact hown
  have hctr1 : lookupL s1.account_owned_assets from_ = some (n + 1) := by
    rw [hc1]
    exact hctr
  have h2 := asset_remove_from_eq hown1 hctr1
  have habs2 : lookupL (eraseL id s1.asset_owner) id = none := by
    rw [ho1]
    exact lookupL_eraseL_self hno
  have h3 := @add_asset_to_eq to_ id
    { s1 with
      account_owned_assets := insertL from_ n s1.account_owned_assets
      asset_owner := eraseL id s1.asset_owner } habs2 hto
  have heq := @asset_transfer_from_auth_eq caller from_ to_ id A s hown hauth
  refine ⟨{ s1 with
      account_owned_assets :=
        increase_counter_of (insertL from_ n s1.account_owned_assets) to_
      asset_owner := insertL id to_ (eraseL id s1.asset_owner) }, ?_, ?_, ?_, ?_⟩
  · show asset_transfer_from caller from_ to_ id s = _
    rw [heq, h1]
    simp only [Outcome.bind]
    rw [h2]
    simp only [Outcome.bind]
    rw [h3]
  · exact lookupL_insertL_self _ _ _
  · intro htA
    show lookupL (increase_counter_of (insertL from_ n s1.account_owned_assets) to_) A
      = lookupL s.account_owned_assets A
    unfold increase_counter_of
    cases hv : lookupL (insertL from_ n s1.account_owned_assets) to_ <;>
      rw [lookupL_insertL_ne _ _ (fun hh => htA hh.symm),
        lookupL_insertL_ne _ _ (fun hh => hfrom hh.symm), hc1]
  · intro htf
    show lookupL (increase_counter_of (insertL from_ n s1.account_owned_assets) to_) from_
      = some n
    unfold increase_counter_of
    cases hv : lookupL (insertL from_ n s1.account_owned_assets) to_ <;>
      rw [lookupL_insertL_ne _ _ (fun hh => htf hh.symm), lookupL_insertL_self]

/-- Witness for C10: account 1 (owner of asset 1) calls
`transfer_from(from = 2, to = 3, id = 1)`; the call succeeds, asset 1 ends up
owned by 3, account 1's counter is untouched and account 2's counter drops to
0. -/
theorem C10_transfer_from_unchecked_witness :
    ∃ s', transfer_from 1 2 3 1 c6wstate = .ok s' ∧
      lookupL s'.asset_owner 1 = some 3 ∧
      ((3 : Nat) ≠ 1 →
        lookupL s'.account_owned_assets 1 = lookupL c6wstate.account_owned_assets 1) ∧
      ((3 : Nat) ≠ 2 → lookupL s'.account_owned_assets 2 = some 0) :=
  @C10_transfer_from_unchecked 1 2 3 1 1 0 c6wstate
    (by refine ⟨?_, ?_, ?_⟩ <;> decide) (by decide) (Or.inl (by decide))
    (by decide) (by decide) (by decide)

/-- The mutated state left when the C10 scenario is run with the zero account
as destination: asset 1 is gone and account 2's counter was decremented, yet
the call returned `NotAllowed`. -/
def c10ErrState : State :=
  { initState with
    asset_owner := [(2, 2)]
    account_owned_assets := [(1, 1), (2, 0)] }

/-- Claim C10, as stated, is false for a zero destination: the caller is
authorized, `from = 2` differs from the owner 1 and has a positive counter,
yet `transfer_from(2, 0, 1)` returns `NotAllowed` instead of succeeding. -/
theorem C10_counterexample :
    lookupL c6wstate.asset_owner 1 = some 1 ∧
      approved_or_owner c6wstate (some 1) 1 = some true ∧
      (2 : Nat) ≠ 1 ∧
      lookupL c6wstate.account_owned_assets 2 = some 1 ∧
      transfer_from 1 2 0 1 c6wstate = .err .NotAllowed c10ErrState := by
  refine ⟨by decide, by decide, by decide, by decide, by decide⟩
